import Mathlib

/-!
Verification of the rule-matching engine of a student dropout-risk expert
system (a small Flask service, `app.py`).

The embedding models the JSON scalar values the service manipulates, the
host language's equality on them (in Python, `bool` is a subclass of `int`,
so `True == 1` and `False == 0`), Python dictionaries as ordered association
lists with insert-or-overwrite update, and the four pure functions of the
source: `camel_to_pascal`, `pascal_to_camel`, `match_rule`,
`format_prediction`, plus the request handlers `dropout_risk` and
`get_facts` as functions of the parsed request body and the loaded
configuration (the file-loading and HTTP glue is treated as an external
collaborator, as the design document does).

Character case conversion is modelled on a per-character basis
(`Char.toUpper` / `Char.toLower`), which matches the source for ASCII
alphabetic characters — the scope the design document itself restricts
case conversion claims to. JSON numbers are modelled as integers.
-/

/-- A JSON scalar value as decoded by the service: string, number
(modelled as an integer), boolean, or null. -/
inductive JValue where
  | str (s : String)
  | num (n : Int)
  | bool (b : Bool)
  | null
deriving DecidableEq

/-- Python `==` on decoded JSON scalars. Values of the same shape compare
structurally; `None` equals only `None`; and, because Python's `bool` is a
subclass of `int`, `True` compares equal to `1` and `False` to `0`. All
other cross-type comparisons are unequal. -/
def pyEq : JValue → JValue → Bool
  | .str a, .str b => a == b
  | .num a, .num b => a == b
  | .bool a, .bool b => a == b
  | .bool a, .num n => (if a then (1 : Int) else 0) == n
  | .num n, .bool b => n == (if b then (1 : Int) else 0)
  | .null, .null => true
  | _, _ => false

/-- Shape tag of a `JValue`: 0 = string, 1 = number, 2 = boolean, 3 = null.
Used to state which cross-type comparisons are involved. -/
def JValue.tag : JValue → Nat
  | .str _ => 0
  | .num _ => 1
  | .bool _ => 2
  | .null => 3

/-- `camel_to_pascal` from the source: upper-case the first character,
leave the rest unchanged; the empty string is returned as is. -/
def camel_to_pascal (camel_str : String) : String :=
  match camel_str.data with
  | [] => camel_str
  | c :: rest => String.mk (c.toUpper :: rest)

/-- `pascal_to_camel` from the source: lower-case the first character,
leave the rest unchanged; the empty string is returned as is. -/
def pascal_to_camel (pascal_str : String) : String :=
  match pascal_str.data with
  | [] => pascal_str
  | c :: rest => String.mk (c.toLower :: rest)

/-- A Python dict is modelled as an association list in insertion order.
`dictInsert` is dict assignment `d[k] = v`: overwrite in place if the key
is present, append otherwise. -/
def dictInsert {α : Type} : List (String × α) → String → α → List (String × α)
  | [], k, v => [(k, v)]
  | kv :: rest, k, v => if kv.1 = k then (k, v) :: rest else kv :: dictInsert rest k v

/-- Python dict lookup `d.get(k)`: the value at the first (unique) matching
key, or `none` when the key is absent. -/
def dictLookup {α : Type} : List (String × α) → String → Option α
  | [], _ => none
  | kv :: rest, k => if kv.1 = k then some kv.2 else dictLookup rest k

/-- A rule as loaded from `rules.json`. Each field may be absent from the
JSON object (`rule.get` is used throughout the source), hence `Option`. -/
structure Rule where
  conditions : Option (List (String × JValue))
  prediction : Option String
  actions : Option (List String)
deriving DecidableEq

/-- One step of the `pascal_facts` construction in `match_rule`: a fact is
skipped when its value is null (`if value is not None`), otherwise stored
under its name with the first letter upper-cased. -/
def pascalStep (acc : List (String × JValue)) (kv : String × JValue) : List (String × JValue) :=
  if kv.2 = JValue.null then acc else dictInsert acc (camel_to_pascal kv.1) kv.2

/-- The normalized fact mapping built at the top of `match_rule`:
null-valued facts dropped, every remaining key converted to internal
(first-letter-upper) form, in dict iteration order. -/
def pascalFacts (facts : List (String × JValue)) : List (String × JValue) :=
  facts.foldl pascalStep []

/-- One condition test of the inner loop of `match_rule`: the condition key
must be present in the normalized facts (`condition_key not in pascal_facts`
fails the rule) and the stored value must compare equal under Python `==`. -/
def condHolds (pfacts : List (String × JValue)) (kv : String × JValue) : Bool :=
  match dictLookup pfacts kv.1 with
  | none => false
  | some w => pyEq w kv.2

/-- Whether every condition of a rule holds against a normalized fact
mapping (the `matches` flag of the source's inner loop; `rule.get
('conditions', {})` defaults a missing conditions field to the empty
mapping). -/
def ruleMatches (pfacts : List (String × JValue)) (r : Rule) : Bool :=
  (r.conditions.getD []).all (condHolds pfacts)

/-- `match_rule` from the source: normalize the facts, then scan the rules
in list order and return the first rule all of whose conditions hold, or
`none` when no rule qualifies. -/
def match_rule (facts : List (String × JValue)) (rules : List Rule) : Option Rule :=
  let pascal_facts := pascalFacts facts
  rules.find? (ruleMatches pascal_facts)

/-- The response body produced by `format_prediction`. -/
structure PredictionResponse where
  willDropout : Bool
  riskLevel : String
  explanation : String
  remedies : List String
deriving DecidableEq

/-- Per-character lower-casing of a string, as Python's `str.lower` acts on
ASCII text (the source compares `prediction.lower()` against ASCII
labels). -/
def str_lower (s : String) : String :=
  String.mk (s.data.map Char.toLower)

/-- The `remedies` field computed by `format_prediction`: the source's
`actions if actions else []` maps a null or empty actions argument to the
empty list and keeps any other list as is. -/
def remediesOf (actions : Option (List String)) : List String :=
  match actions with
  | none => []
  | some l => if l.isEmpty then [] else l

/-- `format_prediction` from the source: classify the prediction label by
case-insensitive whole-string comparison against three known labels and
fill in the response template; the original (not case-folded) label is
appended to the explanation in every branch. -/
def format_prediction (prediction : String) (actions : Option (List String)) : PredictionResponse :=
  if str_lower prediction = "dropout" then
    { willDropout := true
      riskLevel := "High"
      explanation := "Based on the provided facts, the expert system predicts a high risk of dropout. " ++ prediction
      remedies := remediesOf actions }
  else if str_lower prediction = "graduate" then
    { willDropout := false
      riskLevel := "Low"
      explanation := "Based on the provided facts, the expert system predicts the student will graduate successfully. " ++ prediction
      remedies := remediesOf actions }
  else if str_lower prediction = "staysenrolled" then
    { willDropout := false
      riskLevel := "Medium"
      explanation := "Based on the provided facts, the expert system predicts the student will stay enrolled. " ++ prediction
      remedies := remediesOf actions }
  else
    { willDropout := false
      riskLevel := "Medium"
      explanation := "Based on the provided facts, the expert system prediction: " ++ prediction
      remedies := remediesOf actions }

/-- Outcome of the `dropout_risk` handler: `ok` is an HTTP 200 response
with a prediction body, `badRequest` an HTTP 400 client error with an
error message. -/
inductive DropoutResult where
  | ok (resp : PredictionResponse)
  | badRequest (error : String)
deriving DecidableEq

/-- Python truthiness of a rule object: a dict is falsy exactly when it
has no keys, and a `Rule` with every field absent models the empty JSON
object. -/
def ruleNonempty (r : Rule) : Bool :=
  match r with
  | ⟨none, none, none⟩ => false
  | _ => true

/-- The fixed default response body the handler returns when
`matched_rule` is falsy (no rule matched, or the matched rule is the empty
object). -/
def noMatchResponse : PredictionResponse :=
  { willDropout := false
    riskLevel := "Medium"
    explanation := "Based on the provided facts, no specific rule matched. General monitoring recommended."
    remedies := ["Regular check-ins with academic advisor", "Monitor academic performance"] }

/-- The `dropout_risk` handler as a function of the parsed JSON body
(`none` when no body was supplied; an empty mapping is likewise rejected,
since Python's `if not data` treats an empty dict as falsy) and the loaded
rule list. It drops null-valued facts, rejects fewer than 3 remaining
facts, runs `match_rule`, then tests `if matched_rule:` — dict truthiness,
so both no match and a matched empty rule object take the default branch —
and otherwise formats the matched rule (defaulting a missing prediction to
`"StayEnrolled"` and missing actions to `[]`). -/
def dropout_risk (data : Option (List (String × JValue))) (rules : List Rule) : DropoutResult :=
  match data with
  | none => .badRequest "Missing request body"
  | some d =>
    if d.isEmpty then .badRequest "Missing request body"
    else
      let provided_facts := d.filter (fun kv => kv.2 ≠ JValue.null)
      if provided_facts.length < 3 then .badRequest "At least 3 facts are required"
      else
        match match_rule provided_facts rules with
        | some r =>
          if ruleNonempty r then
            .ok (format_prediction (r.prediction.getD "StayEnrolled") (some (r.actions.getD [])))
          else
            .ok noMatchResponse
        | none =>
          .ok noMatchResponse

/-- One step of the key conversion in the `get_facts` handler: store the
value under the key with its first letter lower-cased. -/
def camelStep (acc : List (String × JValue)) (kv : String × JValue) : List (String × JValue) :=
  dictInsert acc (pascal_to_camel kv.1) kv.2

/-- The `get_facts` handler as a function of the loaded fact-definition
mapping: rebuild the mapping with every key converted to external
(first-letter-lower) form, iterating in source order. -/
def get_facts (facts : List (String × JValue)) : List (String × JValue) :=
  facts.foldl camelStep []

/-- The design document's reading of when a rule is satisfied by a caller's
facts: every condition key is present in the normalized (null-filtered,
first-letter-upper-cased) fact mapping with a value that compares equal. -/
def RuleSatisfied (facts : List (String × JValue)) (r : Rule) : Prop :=
  ∀ kv ∈ r.conditions.getD [], ∃ w, dictLookup (pascalFacts facts) kv.1 = some w ∧ pyEq w kv.2 = true

lemma condHolds_iff (pfacts : List (String × JValue)) (kv : String × JValue) :
    condHolds pfacts kv = true ↔ ∃ w, dictLookup pfacts kv.1 = some w ∧ pyEq w kv.2 = true := by
  unfold condHolds
  cases h : dictLookup pfacts kv.1 <;> simp [h]

lemma ruleMatches_iff (facts : List (String × JValue)) (r : Rule) :
    ruleMatches (pascalFacts facts) r = true ↔ RuleSatisfied facts r := by
  unfold ruleMatches RuleSatisfied
  rw [List.all_eq_true]
  exact forall_congr' fun kv => forall_congr' fun _ => condHolds_iff _ kv

instance (facts : List (String × JValue)) (r : Rule) : Decidable (RuleSatisfied facts r) :=
  decidable_of_iff _ (ruleMatches_iff facts r)

/-- C5: for every non-empty string whose first character is case-invertible
(lower-casing its upper-cased form gives the character back, as it does for
every ASCII character that is not an upper-case letter), converting to
internal form and back to external form reconstructs the string; both
conversions map the empty string to the empty string and leave every
character after the first unchanged. -/
theorem camel_pascal_round_trip (c : Char) (rest : List Char)
    (h : c.toUpper.toLower = c) :
    pascal_to_camel (camel_to_pascal (String.mk (c :: rest))) = String.mk (c :: rest)
    ∧ camel_to_pascal "" = ""
    ∧ pascal_to_camel "" = ""
    ∧ (camel_to_pascal (String.mk (c :: rest))).data.tail = rest
    ∧ (pascal_to_camel (String.mk (c :: rest))).data.tail = rest := by
  refine ⟨?_, rfl, rfl, rfl, rfl⟩
  show String.mk (c.toUpper.toLower :: rest) = String.mk (c :: rest)
  rw [h]

theorem camel_pascal_round_trip_witness :
    pascal_to_camel (camel_to_pascal (String.mk ('g' :: ['p', 'a']))) = String.mk ('g' :: ['p', 'a']) :=
  (camel_pascal_round_trip 'g' ['p', 'a'] (by decide)).1

/-- C2 counterexample: the claim that every cross-type condition-to-fact
comparison is unequal fails, because the host language treats booleans as
integers: the boolean fact `true` compares equal to the numeric condition
value `1`, so a rule whose condition requires the number 1 matches a
caller who supplied the boolean true. -/
theorem bool_num_condition_holds :
    pyEq (JValue.bool true) (JValue.num 1) = true
    ∧ (JValue.bool true).tag ≠ (JValue.num 1).tag
    ∧ match_rule [("enrolled", JValue.bool true)]
        [{ conditions := some [("Enrolled", JValue.num 1)]
           prediction := some "Dropout"
           actions := some [] }] =
      some { conditions := some [("Enrolled", JValue.num 1)]
             prediction := some "Dropout"
             actions := some [] } := by
  refine ⟨rfl, by decide, ?_⟩
  decide

/-- C2 (amended): condition-to-fact comparison is strict and type-sensitive
for every pair of differently-shaped values except boolean-versus-number:
a string never equals a non-string (in particular "3" does not equal the
number 3 and "true" does not equal the boolean true) and null never equals
a non-null value, while a boolean compares equal to a number exactly when
the number is its numeric counterpart (true is 1, false is 0). -/
theorem condition_eq_type_sensitive :
    (∀ v w : JValue, v.tag ≠ w.tag → ¬(v.tag = 1 ∧ w.tag = 2) → ¬(v.tag = 2 ∧ w.tag = 1) →
      pyEq v w = false)
    ∧ (∀ (b : Bool) (n : Int), pyEq (JValue.bool b) (JValue.num n) = ((if b then (1 : Int) else 0) == n))
    ∧ (∀ (b : Bool) (n : Int), pyEq (JValue.num n) (JValue.bool b) = (n == (if b then (1 : Int) else 0)))
    ∧ pyEq (JValue.str "3") (JValue.num 3) = false
    ∧ pyEq (JValue.str "true") (JValue.bool true) = false := by
  refine ⟨?_, fun b n => rfl, fun b n => rfl, rfl, rfl⟩
  intro v w h1 h2 h3
  cases v <;> cases w <;> simp_all [JValue.tag, pyEq]

theorem condition_eq_type_sensitive_witness :
    pyEq (JValue.str "yes") JValue.null = false :=
  condition_eq_type_sensitive.1 (JValue.str "yes") JValue.null (by decide) (by decide) (by decide)

lemma remediesOf_some (l : List String) : remediesOf (some l) = l := by
  cases l <;> simp [remediesOf]

lemma fp_branch_dropout (p : String) (a : Option (List String)) (h : str_lower p = "dropout") :
    format_prediction p a =
      ⟨true, "High",
       "Based on the provided facts, the expert system predicts a high risk of dropout. " ++ p,
       remediesOf a⟩ := by
  unfold format_prediction
  rw [if_pos h]

lemma fp_branch_graduate (p : String) (a : Option (List String)) (h : str_lower p = "graduate") :
    format_prediction p a =
      ⟨false, "Low",
       "Based on the provided facts, the expert system predicts the student will graduate successfully. " ++ p,
       remediesOf a⟩ := by
  unfold format_prediction
  rw [if_neg (by rw [h]; decide), if_pos h]

lemma fp_branch_stays (p : String) (a : Option (List String)) (h : str_lower p = "staysenrolled") :
    format_prediction p a =
      ⟨false, "Medium",
       "Based on the provided facts, the expert system predicts the student will stay enrolled. " ++ p,
       remediesOf a⟩ := by
  unfold format_prediction
  rw [if_neg (by rw [h]; decide), if_neg (by rw [h]; decide), if_pos h]

lemma fp_branch_default (p : String) (a : Option (List String))
    (h1 : str_lower p ≠ "dropout") (h2 : str_lower p ≠ "graduate")
    (h3 : str_lower p ≠ "staysenrolled") :
    format_prediction p a =
      ⟨false, "Medium",
       "Based on the provided facts, the expert system prediction: " ++ p,
       remediesOf a⟩ := by
  unfold format_prediction
  rw [if_neg h1, if_neg h2, if_neg h3]

/-- C3: `format_prediction` classifies the label by case-insensitive
whole-string match — "dropout" gives willDropout true with risk "High",
"graduate" gives willDropout false with risk "Low", "staysenrolled" and
every unrecognized label give willDropout false with risk "Medium", the
unrecognized case using the generic explanation template; the explanation
always ends with the original un-case-folded label, remedies is the actions
list verbatim, and remedies is empty when actions is absent. -/
theorem format_prediction_spec (p : String) (a : Option (List String)) :
    (str_lower p = "dropout" →
      (format_prediction p a).willDropout = true ∧ (format_prediction p a).riskLevel = "High")
    ∧ (str_lower p = "graduate" →
      (format_prediction p a).willDropout = false ∧ (format_prediction p a).riskLevel = "Low")
    ∧ (str_lower p = "staysenrolled" →
      (format_prediction p a).willDropout = false ∧ (format_prediction p a).riskLevel = "Medium")
    ∧ (str_lower p ≠ "dropout" → str_lower p ≠ "graduate" → str_lower p ≠ "staysenrolled" →
      (format_prediction p a).willDropout = false ∧ (format_prediction p a).riskLevel = "Medium"
      ∧ (format_prediction p a).explanation =
          "Based on the provided facts, the expert system prediction: " ++ p)
    ∧ (∃ t, (format_prediction p a).explanation = t ++ p)
    ∧ (a = none → (format_prediction p a).remedies = [])
    ∧ (∀ l, a = some l → (format_prediction p a).remedies = l) := by
  refine ⟨fun h => ?_, fun h => ?_, fun h => ?_, fun h1 h2 h3 => ?_, ?_, fun h => ?_,
    fun l h => ?_⟩
  · rw [fp_branch_dropout p a h]; exact ⟨rfl, rfl⟩
  · rw [fp_branch_graduate p a h]; exact ⟨rfl, rfl⟩
  · rw [fp_branch_stays p a h]; exact ⟨rfl, rfl⟩
  · rw [fp_branch_default p a h1 h2 h3]; exact ⟨rfl, rfl, rfl⟩
  · unfold format_prediction
    split_ifs <;> exact ⟨_, rfl⟩
  · subst h
    unfold format_prediction
    split_ifs <;> rfl
  · subst h
    unfold format_prediction
    split_ifs <;> exact remediesOf_some l

theorem format_prediction_spec_witness :
    (format_prediction "Dropout" (some [])).willDropout = true
    ∧ (format_prediction "Dropout" (some [])).riskLevel = "High"
    ∧ (format_prediction "Dropout" (some [])).remedies = [] :=
  ⟨((format_prediction_spec "Dropout" (some [])).1 (by decide)).1,
   ((format_prediction_spec "Dropout" (some [])).1 (by decide)).2,
   (format_prediction_spec "Dropout" (some [])).2.2.2.2.2.2 [] rfl⟩

lemma match_rule_eq (facts : List (String × JValue)) (rules : List Rule) :
    match_rule facts rules = rules.find? (ruleMatches (pascalFacts facts)) := rfl

/-- C1: `match_rule` returns exactly the first rule, in list order, all of
whose condition keys are present with equal values in the normalized
(first-letter-upper-cased), null-filtered fact mapping — that is, it
returns `some r` precisely when the rule list splits as earlier rules that
all fail, then `r`, which is satisfied — and it returns `none` precisely
when no rule in the list is satisfied. -/
theorem match_rule_first_match (facts : List (String × JValue)) (rules : List Rule) :
    (∀ r, match_rule facts rules = some r ↔
      RuleSatisfied facts r ∧
        ∃ pre post, rules = pre ++ r :: post ∧ ∀ r' ∈ pre, ¬ RuleSatisfied facts r')
    ∧ (match_rule facts rules = none ↔ ∀ r ∈ rules, ¬ RuleSatisfied facts r) := by
  constructor
  · intro r
    rw [match_rule_eq, List.find?_eq_some]
    constructor
    · rintro ⟨hp, pre, post, heq, hpre⟩
      refine ⟨(ruleMatches_iff facts r).mp hp, pre, post, heq, fun r' hr' hs => ?_⟩
      have h2 := hpre r' hr'
      rw [(ruleMatches_iff facts r').mpr hs] at h2
      simp at h2
    · rintro ⟨hs, pre, post, heq, hpre⟩
      refine ⟨(ruleMatches_iff facts r).mpr hs, pre, post, heq, fun r' hr' => ?_⟩
      have h3 : ruleMatches (pascalFacts facts) r' = false := by
        cases hb : ruleMatches (pascalFacts facts) r'
        · rfl
        · exact absurd ((ruleMatches_iff facts r').mp hb) (hpre r' hr')
      simp [h3]
  · rw [match_rule_eq, List.find?_eq_none]
    exact forall_congr' fun r => forall_congr' fun _ => not_congr (ruleMatches_iff facts r)

/-- Example caller facts (external, first-letter-lower-cased names) used in
concrete checks. -/
def exFacts : List (String × JValue) :=
  [("gpa", JValue.num 2), ("attendanceRate", JValue.num 60), ("hasScholarship", JValue.bool false)]

/-- An example rule whose condition fails against `exFacts`. -/
def exRuleFail : Rule :=
  { conditions := some [("Gpa", JValue.num 3)]
    prediction := some "Graduate"
    actions := some ["keep it up"] }

/-- An example rule satisfied by `exFacts`. -/
def exRuleMatch : Rule :=
  { conditions := some [("Gpa", JValue.num 2), ("AttendanceRate", JValue.num 60)]
    prediction := some "Dropout"
    actions := some ["tutoring"] }

/-- An example catch-all rule with an empty conditions mapping. -/
def exRuleCatchAll : Rule :=
  { conditions := some []
    prediction := some "StayEnrolled"
    actions := none }

theorem match_rule_first_match_witness :
    match_rule exFacts [exRuleFail, exRuleMatch] = some exRuleMatch :=
  ((match_rule_first_match exFacts [exRuleFail, exRuleMatch]).1 exRuleMatch).mpr
    ⟨by decide, [exRuleFail], [], rfl, by decide⟩

/-- C6: a rule whose conditions mapping is empty is satisfied by every fact
mapping, and when every rule before it fails, `match_rule` returns it — so
placed last it acts as a catch-all. -/
theorem empty_conditions_catch_all (facts : List (String × JValue)) (rules : List Rule) (r : Rule)
    (hempty : r.conditions.getD [] = []) :
    RuleSatisfied facts r
    ∧ ((∀ r' ∈ rules, ¬ RuleSatisfied facts r') → match_rule facts (rules ++ [r]) = some r) := by
  have hsat : RuleSatisfied facts r := by
    intro kv hkv
    rw [hempty] at hkv
    exact absurd hkv (List.not_mem_nil kv)
  refine ⟨hsat, fun hfail => ?_⟩
  rw [match_rule_eq, List.find?_append]
  have hnone : rules.find? (ruleMatches (pascalFacts facts)) = none :=
    List.find?_eq_none.mpr fun r' hr' hp => hfail r' hr' ((ruleMatches_iff facts r').mp hp)
  rw [hnone]
  simp [(ruleMatches_iff facts r).mpr hsat]

theorem empty_conditions_catch_all_witness :
    match_rule exFacts [exRuleFail, exRuleCatchAll] = some exRuleCatchAll :=
  (empty_conditions_catch_all exFacts [exRuleFail] exRuleCatchAll rfl).2 (by decide)

lemma dictLookup_dictInsert_ne {α : Type} (l : List (String × α)) (k q : String) (v : α)
    (h : k ≠ q) : dictLookup (dictInsert l k v) q = dictLookup l q := by
  induction l with
  | nil => simp [dictInsert, dictLookup, h]
  | cons kv rest ih =>
    by_cases hk : kv.1 = k
    · simp [dictInsert, hk, dictLookup, h]
    · simp only [dictInsert, if_neg hk, dictLookup]
      split
      · rfl
      · exact ih

lemma foldl_pascalStep_lookup (l : List (String × JValue)) (acc : List (String × JValue))
    (q : String) (h : ∀ kv ∈ l, camel_to_pascal kv.1 ≠ q) :
    dictLookup (l.foldl pascalStep acc) q = dictLookup acc q := by
  induction l generalizing acc with
  | nil => rfl
  | cons kv rest ih =>
    rw [List.foldl_cons, ih _ (fun kv' h' => h kv' (List.mem_cons_of_mem _ h'))]
    unfold pascalStep
    split
    · rfl
    · exact dictLookup_dictInsert_ne _ _ _ _ (h kv (List.mem_cons_self kv rest))

lemma pascalFacts_append (facts extra : List (String × JValue)) :
    pascalFacts (facts ++ extra) = extra.foldl pascalStep (pascalFacts facts) := by
  unfold pascalFacts
  rw [List.foldl_append]

/-- C7: satisfaction of an individual rule is monotone in extra facts —
if a fact mapping satisfies all of a rule's conditions, appending further
non-null facts whose normalized (first-letter-upper-cased) names are not
mentioned in the rule's conditions leaves the rule satisfied. -/
theorem extra_facts_monotone (facts extra : List (String × JValue)) (r : Rule)
    (hsat : RuleSatisfied facts r)
    (hextra : ∀ kv ∈ extra, kv.2 ≠ JValue.null ∧
      ∀ c ∈ r.conditions.getD [], camel_to_pascal kv.1 ≠ c.1) :
    RuleSatisfied (facts ++ extra) r := by
  intro c hc
  obtain ⟨w, hw, heq⟩ := hsat c hc
  refine ⟨w, ?_, heq⟩
  rw [pascalFacts_append,
    foldl_pascalStep_lookup extra _ c.1 (fun kv hkv => (hextra kv hkv).2 c hc)]
  exact hw

theorem extra_facts_monotone_witness :
    RuleSatisfied (exFacts ++ [("mentorAssigned", JValue.str "yes")]) exRuleMatch :=
  extra_facts_monotone exFacts [("mentorAssigned", JValue.str "yes")] exRuleMatch
    (by decide) (by decide)

/-- C4: when the request body holds fewer than 3 non-null facts the
`dropout_risk` handler answers with a client error (HTTP 400): the outcome
is a `badRequest` regardless of the rule list — the same outcome for every
rule list, so matching is never consulted — and whenever the body is
non-empty the message is the precondition-failure message. -/
theorem insufficient_facts_rejected (d : List (String × JValue)) (rules rules' : List Rule)
    (h : (d.filter (fun kv => kv.2 ≠ JValue.null)).length < 3) :
    (∃ msg, dropout_risk (some d) rules = DropoutResult.badRequest msg)
    ∧ dropout_risk (some d) rules = dropout_risk (some d) rules'
    ∧ (d.isEmpty = false →
        dropout_risk (some d) rules = DropoutResult.badRequest "At least 3 facts are required") := by
  by_cases he : d.isEmpty
  · refine ⟨⟨"Missing request body", ?_⟩, ?_, fun hne => ?_⟩
    · simp [dropout_risk, he]
    · simp [dropout_risk, he]
    · rw [he] at hne
      exact absurd hne (by simp)
  · have hb : dropout_risk (some d) rules = DropoutResult.badRequest "At least 3 facts are required" := by
      simp only [dropout_risk, if_neg he]
      rw [if_pos h]
    have hb' : dropout_risk (some d) rules' = DropoutResult.badRequest "At least 3 facts are required" := by
      simp only [dropout_risk, if_neg he]
      rw [if_pos h]
    exact ⟨⟨_, hb⟩, by rw [hb, hb'], fun _ => hb⟩

theorem insufficient_facts_rejected_witness :
    dropout_risk (some [("gpa", JValue.num 2), ("age", JValue.null)]) [exRuleCatchAll] =
      DropoutResult.badRequest "At least 3 facts are required" :=
  (insufficient_facts_rejected [("gpa", JValue.num 2), ("age", JValue.null)]
    [exRuleCatchAll] [] (by decide)).2.2 (by decide)

/-- C8: when the request body holds at least 3 non-null facts and no rule
is satisfied by them, the `dropout_risk` handler answers success (HTTP 200)
with the fixed default: willDropout false, risk "Medium", the generic
no-match explanation, and exactly the two fixed generic remedy strings. -/
theorem no_match_default (d : List (String × JValue)) (rules : List Rule)
    (hne : d.isEmpty = false)
    (h3 : ¬ (d.filter (fun kv => kv.2 ≠ JValue.null)).length < 3)
    (hnom : ∀ r ∈ rules, ¬ RuleSatisfied (d.filter (fun kv => kv.2 ≠ JValue.null)) r) :
    dropout_risk (some d) rules =
      DropoutResult.ok
        { willDropout := false
          riskLevel := "Medium"
          explanation := "Based on the provided facts, no specific rule matched. General monitoring recommended."
          remedies := ["Regular check-ins with academic advisor", "Monitor academic performance"] } := by
  have hmr : match_rule (d.filter (fun kv => kv.2 ≠ JValue.null)) rules = none := by
    rw [match_rule_eq, List.find?_eq_none]
    exact fun r hr hp => hnom r hr ((ruleMatches_iff _ r).mp hp)
  have hne' : ¬ d.isEmpty = true := by rw [hne]; exact Bool.false_ne_true
  simp only [dropout_risk, if_neg hne']
  rw [if_neg h3, hmr]
  rfl

theorem no_match_default_witness :
    dropout_risk (some exFacts) [exRuleFail] =
      DropoutResult.ok
        { willDropout := false
          riskLevel := "Medium"
          explanation := "Based on the provided facts, no specific rule matched. General monitoring recommended."
          remedies := ["Regular check-ins with academic advisor", "Monitor academic performance"] } :=
  no_match_default exFacts [exRuleFail] (by decide) (by decide) (by decide)

lemma format_prediction_remedies (p : String) (a : Option (List String)) :
    (format_prediction p a).remedies = remediesOf a := by
  unfold format_prediction
  split_ifs <;> rfl

/-- The empty rule object: a rule with no fields at all, as loaded from
the JSON object with no keys. -/
def emptyRule : Rule :=
  { conditions := none
    prediction := none
    actions := none }

/-- C10 counterexample: the empty rule object matches unconditionally and
lacks both the "prediction" and the "actions" field, yet the handler does
not format it with the "StayEnrolled" default — the source's
`if matched_rule:` test treats the empty dict as falsy, so the request
gets the fixed no-match default body, whose remedies are the two generic
strings rather than the empty sequence. -/
theorem empty_rule_no_match_default :
    match_rule (exFacts.filter (fun kv => kv.2 ≠ JValue.null)) [emptyRule] = some emptyRule
    ∧ emptyRule.prediction = none
    ∧ emptyRule.actions = none
    ∧ dropout_risk (some exFacts) [emptyRule] = DropoutResult.ok noMatchResponse
    ∧ noMatchResponse.remedies ≠ []
    ∧ dropout_risk (some exFacts) [emptyRule] ≠
        DropoutResult.ok (format_prediction "StayEnrolled" (some [])) := by
  refine ⟨rfl, rfl, rfl, rfl, by decide, by decide⟩

/-- C10 (amended): a matched rule that is a non-empty object and lacks a
"prediction" field is formatted with the default label "StayEnrolled" —
giving willDropout false and risk "Medium" — and such a rule lacking an
"actions" field yields empty remedies; a matched rule that is the empty
object is falsy under the source's `if matched_rule:` test and yields the
fixed no-match default body instead. In every case the handler answers
success (HTTP 200), never an error. -/
theorem missing_fields_defaults (d : List (String × JValue)) (rules : List Rule) (r : Rule)
    (hne : d.isEmpty = false)
    (h3 : ¬ (d.filter (fun kv => kv.2 ≠ JValue.null)).length < 3)
    (hm : match_rule (d.filter (fun kv => kv.2 ≠ JValue.null)) rules = some r) :
    (∃ resp, dropout_risk (some d) rules = DropoutResult.ok resp)
    ∧ (ruleNonempty r = true → r.prediction = none →
        dropout_risk (some d) rules =
          DropoutResult.ok (format_prediction "StayEnrolled" (some (r.actions.getD [])))
        ∧ ∀ resp, dropout_risk (some d) rules = DropoutResult.ok resp →
            resp.willDropout = false ∧ resp.riskLevel = "Medium")
    ∧ (ruleNonempty r = true → r.actions = none →
        ∀ resp, dropout_risk (some d) rules = DropoutResult.ok resp → resp.remedies = [])
    ∧ (ruleNonempty r = false →
        dropout_risk (some d) rules = DropoutResult.ok noMatchResponse) := by
  have hne' : ¬ d.isEmpty = true := by rw [hne]; exact Bool.false_ne_true
  have hdr0 : dropout_risk (some d) rules =
      if ruleNonempty r then
        DropoutResult.ok
          (format_prediction (r.prediction.getD "StayEnrolled") (some (r.actions.getD [])))
      else DropoutResult.ok noMatchResponse := by
    simp only [dropout_risk, if_neg hne']
    rw [if_neg h3, hm]
  by_cases ht : ruleNonempty r = true
  · have hdr : dropout_risk (some d) rules =
        DropoutResult.ok
          (format_prediction (r.prediction.getD "StayEnrolled") (some (r.actions.getD []))) :=
      hdr0.trans (if_pos ht)
    refine ⟨⟨_, hdr⟩, fun _ hp => ?_, fun _ ha resp hresp => ?_,
      fun hf => absurd ht (by rw [hf]; exact Bool.false_ne_true)⟩
    · rw [hp] at hdr
      simp only [Option.getD_none] at hdr
      refine ⟨hdr, fun resp hresp => ?_⟩
      rw [hdr] at hresp
      injection hresp with hr
      rw [← hr, fp_branch_default _ _ (by decide) (by decide) (by decide)]
      exact ⟨rfl, rfl⟩
    · rw [ha] at hdr
      simp only [Option.getD_none] at hdr
      rw [hdr] at hresp
      injection hresp with hr
      rw [← hr, format_prediction_remedies]
      rfl
  · have hdr : dropout_risk (some d) rules = DropoutResult.ok noMatchResponse :=
      hdr0.trans (if_neg ht)
    exact ⟨⟨_, hdr⟩, fun htr => absurd htr ht, fun htr => absurd htr ht, fun _ => hdr⟩

/-- An example rule with neither a prediction nor an actions field but a
non-empty conditions field, satisfied by `exFacts`. -/
def exRuleBare : Rule :=
  { conditions := some [("HasScholarship", JValue.bool false)]
    prediction := none
    actions := none }

theorem missing_fields_defaults_witness :
    dropout_risk (some exFacts) [exRuleBare] =
      DropoutResult.ok (format_prediction "StayEnrolled" (some [])) :=
  ((missing_fields_defaults exFacts [exRuleBare] exRuleBare (by decide) (by decide)
    (by decide)).2.1 rfl rfl).1

lemma char_toNat_ofNat_valid (n : Nat) (h : n.isValidChar) : (Char.ofNat n).toNat = n := by
  rw [Char.ofNat, dif_pos h]
  rfl

lemma char_toNat_inj {c1 c2 : Char} (h : c1.toNat = c2.toNat) : c1 = c2 :=
  Char.ext (UInt32.toNat.inj h)

lemma uint32_le_iff {a b : UInt32} : a ≤ b ↔ a.toNat ≤ b.toNat := by
  rw [UInt32.le_def, BitVec.le_def]
  rfl

lemma toLower_toNat (c : Char) :
    c.toLower.toNat = if 65 ≤ c.toNat ∧ c.toNat ≤ 90 then c.toNat + 32 else c.toNat := by
  simp only [Char.toLower]
  split
  · next h => exact char_toNat_ofNat_valid _ (Or.inl (by omega))
  · next h => rfl

lemma isLower_false_toNat {c : Char} (h : c.isLower = false) :
    ¬(97 ≤ c.toNat ∧ c.toNat ≤ 122) := by
  rintro ⟨ha, hb⟩
  rw [Char.isLower] at h
  have h1 : (97 : UInt32) ≤ c.val := by
    rw [uint32_le_iff]
    exact le_trans (by decide) ha
  have h2 : c.val ≤ (122 : UInt32) := by
    rw [uint32_le_iff]
    exact le_trans hb (by decide)
  rw [Bool.and_eq_false_iff] at h
  rcases h with h | h <;> simp_all [decide_eq_false_iff_not, ge_iff_le]

lemma toLower_inj_not_lower {c1 c2 : Char} (h1 : c1.isLower = false) (h2 : c2.isLower = false)
    (h : c1.toLower = c2.toLower) : c1 = c2 := by
  have ht : c1.toLower.toNat = c2.toLower.toNat := by rw [h]
  rw [toLower_toNat, toLower_toNat] at ht
  have l1 := isLower_false_toNat h1
  have l2 := isLower_false_toNat h2
  apply char_toNat_inj
  split_ifs at ht <;> omega

lemma pascal_to_camel_inj {s1 s2 : String}
    (h1 : ∀ c ∈ s1.data.head?, c.isLower = false)
    (h2 : ∀ c ∈ s2.data.head?, c.isLower = false)
    (h : pascal_to_camel s1 = pascal_to_camel s2) : s1 = s2 := by
  obtain ⟨l1⟩ := s1
  obtain ⟨l2⟩ := s2
  cases l1 with
  | nil =>
    cases l2 with
    | nil => rfl
    | cons c2 r2 =>
      exact absurd (congrArg String.data h) (by simp [pascal_to_camel])
  | cons c1 r1 =>
    cases l2 with
    | nil => exact absurd (congrArg String.data h) (by simp [pascal_to_camel])
    | cons c2 r2 =>
      have hd : c1.toLower :: r1 = c2.toLower :: r2 := congrArg String.data h
      have hc : c1 = c2 :=
        toLower_inj_not_lower (h1 c1 rfl) (h2 c2 rfl) (List.head_eq_of_cons_eq hd)
      rw [hc, List.tail_eq_of_cons_eq hd]

lemma dictInsert_append_of_not_mem {α : Type} (l : List (String × α)) (k : String) (v : α)
    (h : ∀ kv ∈ l, kv.1 ≠ k) : dictInsert l k v = l ++ [(k, v)] := by
  induction l with
  | nil => rfl
  | cons kv rest ih =>
    unfold dictInsert
    rw [if_neg (h kv (List.mem_cons_self kv rest)),
      ih (fun kv' h' => h kv' (List.mem_cons_of_mem _ h'))]
    rfl

lemma foldl_camelStep_fresh (l : List (String × JValue)) :
    ∀ acc, (l.map (fun kv => pascal_to_camel kv.1)).Nodup →
      (∀ kv ∈ l, ∀ kv' ∈ acc, kv'.1 ≠ pascal_to_camel kv.1) →
      l.foldl camelStep acc = acc ++ l.map (fun kv => (pascal_to_camel kv.1, kv.2)) := by
  induction l with
  | nil =>
    intro acc _ _
    simp
  | cons kv rest ih =>
    intro acc hnd hfresh
    rw [List.foldl_cons]
    have hstep : camelStep acc kv = acc ++ [(pascal_to_camel kv.1, kv.2)] :=
      dictInsert_append_of_not_mem acc _ _
        (fun kv' h' => hfresh kv (List.mem_cons_self kv rest) kv' h')
    rw [List.map_cons] at hnd
    rw [hstep, ih (acc ++ [(pascal_to_camel kv.1, kv.2)]) (List.nodup_cons.mp hnd).2 ?_]
    · rw [List.map_cons, List.append_assoc]
      rfl
    · intro kv2 h2 kv' h'
      rcases List.mem_append.mp h' with h' | h'
      · exact hfresh kv2 (List.mem_cons_of_mem _ h2) kv' h'
      · rw [List.mem_singleton.mp h']
        intro heq
        apply (List.nodup_cons.mp hnd).1
        have heq' : pascal_to_camel kv.1 = pascal_to_camel kv2.1 := heq
        rw [heq']
        exact List.mem_map_of_mem _ h2

/-- C9: for every fact-definition mapping — distinct keys, each in internal
form, that is with a first character that is not a lower-case letter — the
facts listing returns exactly the source mapping with every key converted
to external form (first letter lower-cased), entry for entry, in the exact
source order (in particular for mappings with 0, 1, or 50 entries). -/
theorem get_facts_order (facts : List (String × JValue))
    (hkeys : (facts.map (fun kv => kv.1)).Nodup)
    (hform : ∀ kv ∈ facts, ∀ c ∈ kv.1.data.head?, c.isLower = false) :
    get_facts facts = facts.map (fun kv => (pascal_to_camel kv.1, kv.2)) := by
  have hnd : (facts.map (fun kv => pascal_to_camel kv.1)).Nodup := by
    have hmm : facts.map (fun kv => pascal_to_camel kv.1) =
        (facts.map (fun kv => kv.1)).map pascal_to_camel := by
      rw [List.map_map]
      rfl
    rw [hmm]
    refine List.Nodup.map_on ?_ hkeys
    intro x hx y hy hxy
    obtain ⟨kvx, hkvx, rfl⟩ := List.mem_map.mp hx
    obtain ⟨kvy, hkvy, rfl⟩ := List.mem_map.mp hy
    exact pascal_to_camel_inj (hform kvx hkvx) (hform kvy hkvy) hxy
  unfold get_facts
  rw [foldl_camelStep_fresh facts [] hnd (fun kv _ kv' h' => absurd h' (List.not_mem_nil kv'))]
  rfl

theorem get_facts_order_witness :
    get_facts [("Gpa", JValue.num 0), ("AttendanceRate", JValue.num 100), ("HasScholarship", JValue.bool false)] =
      [("gpa", JValue.num 0), ("attendanceRate", JValue.num 100), ("hasScholarship", JValue.bool false)] := by
  rw [get_facts_order _ (by decide) (by decide)]
  decide
